import Mathlib

/-!
Verification development for the war-record viewer page
(src/pages/01_戦績閲覧.py).  The data-ingestion pipeline
(`get_gspread_client`, `load_data`) and the display ordering of `main`
are shallowly embedded below; external collaborators (streamlit,
gspread, pandas) are modelled by their documented behaviour at the
call sites the page uses, with the modelling choices recorded in the
doc comments of the corresponding definitions.
-/

namespace WarRecord

deriving instance DecidableEq for Except

/-- Split a character list at every occurrence of the separator
(`String.splitOn` for a one-character separator, phrased as a
structural recursion on the character list). -/
def splitOnChar (sep : Char) : List Char → List (List Char)
  | [] => [[]]
  | c :: rest =>
    let r := splitOnChar sep rest
    if c == sep then [] :: r
    else
      match r with
      | [] => [[c]]
      | g :: gs => (c :: g) :: gs

/-- Accumulator for `digitsToNat?`. -/
def digitsToNatAux : List Char → Nat → Option Nat
  | [], acc => some acc
  | c :: rest, acc =>
    if c.isDigit then digitsToNatAux rest (acc * 10 + (c.toNat - 48))
    else none

/-- The value of a non-empty all-digit character list
(`String.toNat?` phrased structurally). -/
def digitsToNat? (cs : List Char) : Option Nat :=
  match cs with
  | [] => none
  | _ => digitsToNatAux cs 0

/-- A raw cell of the dataframe returned by `get_as_dataframe`
(`na_filter=True`): a cell is either missing (pandas `NaN`) or text.
The CSV-style numeric dtype inference of `get_as_dataframe` is not
modelled separately: `pd.to_numeric` on an already-numeric value is
the identity, so keeping numerals as text and parsing them at
coercion time yields the same coerced values. -/
inductive Cell where
  | na : Cell
  | str : String → Cell
deriving DecidableEq

/-- A calendar date as year/month/day (the page stores dates as
`datetime64` but only the calendar-date part is ever produced or
displayed). -/
structure Date where
  year : Int
  month : Nat
  day : Nat
deriving DecidableEq

/-- Gregorian leap-year test. -/
def isLeap (y : Int) : Bool :=
  y % 4 == 0 && (y % 100 != 0 || y % 400 == 0)

/-- Number of days of month `m` of year `y`. -/
def daysInMonth (y : Int) (m : Nat) : Nat :=
  if m == 2 then (if isLeap y then 29 else 28)
  else if m == 4 || m == 6 || m == 9 || m == 11 then 30
  else 31

/-- A `Date` is valid when the month and the day are in range. -/
def Date.validB (d : Date) : Bool :=
  1 ≤ d.month && d.month ≤ 12 && 1 ≤ d.day && d.day ≤ daysInMonth d.year d.month

/-- Linear key realising the calendar order on dates
(lexicographic on year, month, day; month ≤ 12 and day ≤ 31 keep the
components from overlapping). -/
def Date.key (d : Date) : Int :=
  d.year * 10000 + (d.month : Int) * 100 + (d.day : Int)

/-- Models `pd.to_datetime(…, errors='coerce')` on a text cell,
restricted to ISO `YYYY-MM-DD` strings: the string parses exactly
when it denotes a valid calendar date, and anything else becomes
absent (`NaT`).  The many additional textual formats pandas accepts
are not modelled; every format pandas accepts also only produces
valid timestamps or `NaT`, which is the property used below. -/
def parseDate (s : String) : Option Date :=
  match splitOnChar ('-') s.data with
  | [ys, ms, ds] =>
    match digitsToNat? ys, digitsToNat? ms, digitsToNat? ds with
    | some y, some m, some d =>
      let dt : Date := ⟨(y : Int), m, d⟩
      if dt.validB then some dt else none
    | _, _, _ => none
  | _ => none

/-- `pd.to_datetime(…, errors='coerce')` cell-wise: `NaN ↦ NaT`,
text parsed as a date (line 91 of the source). -/
def toDatetime : Cell → Option Date
  | .na => none
  | .str s => parseDate s

/-- A parsed decimal literal with value `num / 10 ^ exp` (`num`
carries the sign, `exp` counts fractional digits). -/
structure Dec where
  num : Int
  exp : Nat
deriving DecidableEq

/-- Whether the decimal denotes an integer. -/
def Dec.isInt (d : Dec) : Bool :=
  d.num % ((10 : Int) ^ d.exp) == 0

/-- The integer denoted by an integral decimal (exact division). -/
def Dec.toInt (d : Dec) : Int :=
  d.num / ((10 : Int) ^ d.exp)

/-- Models the float parse performed by
`pd.to_numeric(…, errors='coerce')` on a text cell: an optionally
signed decimal literal with an optional fractional part, kept exact.
Scientific notation and the rounding of decimal literals to binary
floating point are not modelled; the claims below only use small
literals where both agree. -/
def parseDecimal (s : String) : Option Dec :=
  match s.data with
  | [] => none
  | c :: rest =>
    let body : List Char := if c == '-' || c == '+' then rest else c :: rest
    let sgn : Int := if c == '-' then -1 else 1
    match splitOnChar ('.') body with
    | [ip] => (digitsToNat? ip).map (fun n => ⟨sgn * (n : Int), 0⟩)
    | [ip, fp] =>
      if ip.isEmpty && fp.isEmpty then none
      else
        let iv : Option Nat := if ip.isEmpty then some 0 else digitsToNat? ip
        let fv : Option Nat := if fp.isEmpty then some 0 else digitsToNat? fp
        match iv, fv with
        | some i, some f =>
          some ⟨sgn * ((i : Int) * (10 : Int) ^ fp.length + (f : Int)), fp.length⟩
        | _, _ => none
    | _ => none

/-- `pd.to_numeric(…, errors='coerce')` cell-wise: `NaN ↦ NaN`,
unparseable text ↦ `NaN` (line 93 of the source). -/
def toNumeric : Cell → Option Dec
  | .na => none
  | .str s => parseDecimal s

/-- `pd.to_numeric(…, errors='coerce').astype('Int64')` cell-wise:
`NaN` becomes `pd.NA`, an integral number casts to `Int64`, and a
non-integral number makes `astype('Int64')` raise (pandas refuses the
unsafe float → int cast), modelled as the error case. -/
def toNumericInt64 (c : Cell) : Except String (Option Int) :=
  match toNumeric c with
  | none => Except.ok none
  | some d =>
    if d.isInt then Except.ok (some d.toInt)
    else Except.error ("cannot safely cast non-equivalent float64 to int64")

/-- Models `Series.astype(str).fillna('')` cell-wise (lines 97-99 of
the source): `astype(str)` stringifies every element, turning a
float `NaN` into the string literal `nan`; the subsequent
`fillna('')` finds no missing values left and is a no-op. -/
def astypeStr : Cell → String
  | .na => "nan"
  | .str s => s

/-- A raw dataframe: the column labels discovered in the source
table and the rows, each row aligned positionally with `cols`. -/
structure RawFrame where
  cols : List String
  rows : List (List Cell)
deriving DecidableEq

/-- `DataFrame.empty`: some axis has length zero. -/
def RawFrame.emptyB (df : RawFrame) : Bool :=
  df.rows.isEmpty || df.cols.isEmpty

/-- A cell after type coercion: a `datetime64` cell, an `Int64` cell,
a text cell, or a generic missing value (only ever introduced by
`reindex` on a column that does not exist, which never happens on the
canonical frames built by `load_data`). -/
inductive TypedCell where
  | tdate : Option Date → TypedCell
  | tint : Option Int → TypedCell
  | ttext : String → TypedCell
  | tna : TypedCell
deriving DecidableEq

/-- A dataframe after type coercion. -/
structure TFrame where
  cols : List String
  rows : List (List TypedCell)
deriving DecidableEq

/-- The canonical schema (`COLUMNS`, lines 19-20 of the source). -/
def COLUMNS : List String :=
  ["season", "date", "environment", "my_deck", "my_deck_type",
   "opponent_deck", "opponent_deck_type", "first_second", "result",
   "finish_turn", "memo"]

/-- The diagnostics the page can surface through `st.error` /
`st.warning`, one constructor per distinct message site. -/
inductive Diag where
  | fileCredError : String → Diag
  | authError : String → Diag
  | connectivity : Diag
  | storeNotFound : Diag
  | tableNotFound : Diag
  | schemaMismatch : Diag
  | unexpected : String → Diag
deriving DecidableEq

/-- An opaque credentials object (`google.oauth2` Credentials). -/
structure Creds where
  id : Nat
deriving DecidableEq

/-- An opaque authorized gspread client. -/
structure Client where
  id : Nat
deriving DecidableEq

/-- The state of `st.secrets` as observed by lines 34-39 of the
source: the attribute may be missing, probing it may raise
`StreamlitAPIException` (caught and ignored), or the
`gcp_service_account` key is present or absent. -/
inductive SecretsState where
  | noAttr : SecretsState
  | apiError : SecretsState
  | present : SecretsState
  | absent : SecretsState
deriving DecidableEq

/-- The outcomes of the external credential/authorization calls made
by `get_gspread_client`, supplied as inputs to the model:
the result of `Credentials.from_service_account_info`, of
`Credentials.from_service_account_file`, and of `gspread.authorize`.
`Except.error` models the call raising. -/
structure AuthEnv where
  secrets : SecretsState
  fromInfo : Except String Creds
  fromFile : Except String Creds
  authorize : Creds → Except String Client

/-- `get_gspread_client` (lines 31-54 of the source), uncached body.
The secrets path (lines 40-42) constructs credentials with no
enclosing try/except, so a failure there propagates
(`Except.error`); the file path (lines 44-48) and `gspread.authorize`
(lines 49-54) are wrapped and return `None` plus a diagnostic. -/
def get_gspread_client (env : AuthEnv) : Except String (Option Client × List Diag) :=
  let useSecrets : Bool :=
    match env.secrets with
    | .present => true
    | _ => false
  if useSecrets then
    match env.fromInfo with
    | .error e => Except.error e
    | .ok creds =>
      match env.authorize creds with
      | .ok c => Except.ok (some c, [])
      | .error e => Except.ok (none, [Diag.authError e])
  else
    match env.fromFile with
    | .error e => Except.ok (none, [Diag.fileCredError e])
    | .ok creds =>
      match env.authorize creds with
      | .ok c => Except.ok (some c, [])
      | .error e => Except.ok (none, [Diag.authError e])

/-- The `@st.cache_resource` wrapper around `get_gspread_client`:
the decorator memoises the returned value (any value, `None`
included) for the process lifetime; a raised exception is not
cached.  Input: the current cache slot; output: the call result, the
new cache slot, and whether the wrapped body actually ran. -/
def cachedGetClient (cache : Option (Option Client)) (env : AuthEnv) :
    Except String (Option Client × List Diag) × Option (Option Client) × Bool :=
  match cache with
  | some r => (Except.ok (r, []), some r, false)
  | none =>
    match get_gspread_client env with
    | .ok (r, ds) => (Except.ok (r, ds), some r, true)
    | .error e => (Except.error e, none, true)

/-- The fetched worksheet as observed by `load_data`: its
`row_count`, its first row (`row_values(1)`), and the dataframe
produced by `get_as_dataframe`. -/
structure Worksheet where
  rowCount : Nat
  headerRow : List String
  frame : RawFrame
deriving DecidableEq

/-- The outcome of resolving and fetching the remote table
(lines 69-71 of the source): the two addressing failures gspread
distinguishes, any other raised exception, or the fetched data. -/
inductive FetchResult where
  | spreadsheetNotFound : FetchResult
  | worksheetNotFound : FetchResult
  | raised : String → FetchResult
  | ok : Worksheet → FetchResult
deriving DecidableEq

/-- The header acceptance test of line 77 of the source: the
canonical schema is a positional prefix of the discovered header, or
equals it, or is a subset of it. -/
def headerMatches (cols : List String) : Bool :=
  (cols.take COLUMNS.length == COLUMNS) || (cols == COLUMNS)
    || COLUMNS.all (fun c => cols.contains c)

/-- Lines 72-78 of the source: when `get_as_dataframe` produced an
empty frame but the worksheet has rows and a non-empty first row,
rebuild an empty frame keyed by that header row and emit the
schema-mismatch warning if the header fails `headerMatches`.  On any
other frame this branch — and with it the only schema check — is
skipped. -/
def preProcess (ws : Worksheet) : RawFrame × List Diag :=
  if ws.frame.emptyB && (ws.rowCount != 0) && !ws.headerRow.isEmpty then
    if headerMatches ws.headerRow then (⟨ws.headerRow, []⟩, [])
    else (⟨ws.headerRow, []⟩, [Diag.schemaMismatch])
  else (ws.frame, [])

/-- Lines 80-88 of the source: build `temp_df` over the canonical
columns, copying a source column when one of that name exists
(first occurrence) and synthesising an all-missing column otherwise
(assigning an empty typed `Series` to a frame with rows aligns it to
the frame's index, yielding `NaN` everywhere). -/
def reconcile (df : RawFrame) : RawFrame :=
  ⟨COLUMNS,
   df.rows.map (fun row =>
     COLUMNS.map (fun c =>
       match df.cols.findIdx? (fun c2 => c2 == c) with
       | some i => row.getD i Cell.na
       | none => Cell.na))⟩

/-- The per-column coercions of lines 90-101 of the source, applied
cell-wise: `date` through `to_datetime`, `finish_turn` through
`to_numeric … astype('Int64')` (the one coercion that can raise),
every other canonical column through `astype(str).fillna('')`. -/
def coerceCol (c : String) (cell : Cell) : Except String TypedCell :=
  if c == "date" then Except.ok (TypedCell.tdate (toDatetime cell))
  else if c == "finish_turn" then (toNumericInt64 cell).map TypedCell.tint
  else Except.ok (TypedCell.ttext (astypeStr cell))

/-- Coerce one row, column labels and cells in lockstep; the first
raising coercion aborts the row (the source coerces column-wise, but
a raise aborts the whole frame either way, and no coercion before
`finish_turn` can raise). -/
def coerceRow : List String → List Cell → Except String (List TypedCell)
  | [], _ => Except.ok []
  | c :: cs, cells =>
    match coerceCol c (cells.headD Cell.na) with
    | .error e => Except.error e
    | .ok v =>
      match coerceRow cs cells.tail with
      | .error e => Except.error e
      | .ok vs => Except.ok (v :: vs)

/-- Effectful map over a list: the first error aborts. -/
def mapExcept (f : α → Except ε β) : List α → Except ε (List β)
  | [] => Except.ok []
  | x :: xs =>
    match f x with
    | .error e => Except.error e
    | .ok y =>
      match mapExcept f xs with
      | .error e => Except.error e
      | .ok ys => Except.ok (y :: ys)

/-- Coerce a whole frame (lines 90-101), keeping the column labels. -/
def coerceFrame (df : RawFrame) : Except String TFrame :=
  match mapExcept (coerceRow df.cols) df.rows with
  | .error e => Except.error e
  | .ok rs => Except.ok ⟨df.cols, rs⟩

/-- `df.reindex(columns=…)` (line 103 of the source): select the
requested columns by label, a column absent from the frame becoming
a generic missing column. -/
def reindexT (t : TFrame) (cols : List String) : TFrame :=
  ⟨cols,
   t.rows.map (fun row =>
     cols.map (fun c =>
       match t.cols.findIdx? (fun c2 => c2 == c) with
       | some i => row.getD i TypedCell.tna
       | none => TypedCell.tna))⟩

/-- The empty canonical frame (the `pd.DataFrame(columns=COLUMNS)` of
the failure paths; the typed empty frame of lines 62-67 has the same
columns and no rows, the dtype tags of a rowless frame being
unobservable in this model). -/
def emptyFrame : TFrame := ⟨COLUMNS, []⟩

/-- Lines 68-113 of the source given a client: dispatch on the fetch
outcome; on fetched data run the reconstruction, reconciliation,
coercion and reindex, any raise inside the `try` collapsing to the
empty canonical frame plus the catch-all diagnostic. -/
def loadBody : FetchResult → TFrame × List Diag
  | .spreadsheetNotFound => (emptyFrame, [Diag.storeNotFound])
  | .worksheetNotFound => (emptyFrame, [Diag.tableNotFound])
  | .raised m => (emptyFrame, [Diag.unexpected m])
  | .ok ws =>
    match coerceFrame (reconcile (preProcess ws).1) with
    | .ok t => (reindexT t COLUMNS, (preProcess ws).2)
    | .error m => (emptyFrame, (preProcess ws).2 ++ [Diag.unexpected m])

/-- The client acquisition performed at line 59 of the source (the
diagnostics `get_gspread_client` displays are surfaced globally and
dropped here). -/
def acquireClient (env : AuthEnv) : Except String (Option Client) :=
  (get_gspread_client env).map Prod.fst

/-- `load_data` (lines 57-114 of the source).  The call to
`get_gspread_client` at line 59 sits outside the `try`, so a raise
during client acquisition propagates to the caller
(`Except.error`); a `None` client yields the typed empty frame plus
the connectivity diagnostic (lines 60-67); otherwise the body runs
with every exception caught (lines 68-113). -/
def load_data (env : AuthEnv) (fetch : FetchResult) :
    Except String (TFrame × List Diag) :=
  match acquireClient env with
  | .error e => Except.error e
  | .ok none => Except.ok (emptyFrame, [Diag.connectivity])
  | .ok (some _) => Except.ok (loadBody fetch)

/-- The date of a display row: the content of its `date` column
(lines 131-134 of the source test `isna` on that column). -/
def rowDate (cols : List String) (row : List TypedCell) : Option Date :=
  match cols.findIdx? (fun c => c == "date") with
  | some i =>
    match row.getD i TypedCell.tna with
    | .tdate o => o
    | _ => none
  | none => none

/-- Sort key of a display row (only ever compared between rows whose
date is present). -/
def rowKey (cols : List String) (row : List TypedCell) : Int :=
  match rowDate cols row with
  | some d => d.key
  | none => 0

/-- The descending-date ordering used to sort the dated rows. -/
def dispRel (cols : List String) (a b : List TypedCell) : Prop :=
  rowKey cols b ≤ rowKey cols a

instance (cols : List String) : DecidableRel (dispRel cols) :=
  fun a b => inferInstanceAs (Decidable (rowKey cols b ≤ rowKey cols a))

instance (cols : List String) : IsTotal (List TypedCell) (dispRel cols) :=
  ⟨fun a b => le_total (rowKey cols b) (rowKey cols a)⟩

instance (cols : List String) : IsTrans (List TypedCell) (dispRel cols) :=
  ⟨fun _ _ _ h1 h2 => le_trans h2 h1⟩

/-- Lines 131-135 of the source: when a `date` column exists, split
the rows into dated (`dropna`) and undated (`isna`) rows, sort the
dated rows by date descending and append the undated rows.
`sort_values` promises a descending order but no particular order
among equal dates; the model fixes insertion sort, one such order. -/
def displaySort (df : TFrame) : TFrame :=
  if df.cols.contains ("date") then
    let dated := df.rows.filter (fun r => (rowDate df.cols r).isSome)
    let undated := df.rows.filter (fun r => (rowDate df.cols r).isNone)
    ⟨df.cols, List.insertionSort (dispRel df.cols) dated ++ undated⟩
  else df

/-! ### Concrete inputs used by the closed theorems below -/

/-- An environment whose file credentials and authorization succeed. -/
def envOk : AuthEnv :=
  ⟨SecretsState.absent, Except.ok ⟨0⟩, Except.ok ⟨0⟩, fun _ => Except.ok ⟨0⟩⟩

/-- An environment with no secret bundle and an unreadable credential
file. -/
def envNoFile : AuthEnv :=
  ⟨SecretsState.absent, Except.ok ⟨0⟩, Except.error ("io"), fun _ => Except.ok ⟨0⟩⟩

/-- An environment whose secret bundle is present but malformed: the
credential constructor raises. -/
def envSecretsBroken : AuthEnv :=
  ⟨SecretsState.present, Except.error ("boom"), Except.ok ⟨0⟩, fun _ => Except.ok ⟨0⟩⟩

/-- A worksheet whose table only has a `season` column (`memo` and every
other canonical column are missing from the source). -/
def wsSeason : Worksheet := ⟨2, ["season"], ⟨["season"], [[Cell.str ("S1")]]⟩⟩

/-- A worksheet with the canonical header and one row carrying a date and
a finish turn. -/
def wsCanon : Worksheet :=
  ⟨2, COLUMNS, ⟨COLUMNS,
    [[Cell.str ("S1"), Cell.str ("2024-05-01"), Cell.na, Cell.na, Cell.na,
      Cell.na, Cell.na, Cell.na, Cell.na, Cell.str ("7"), Cell.na]]⟩⟩

/-- A worksheet with the canonical header and a negative finish turn. -/
def wsNeg : Worksheet :=
  ⟨2, COLUMNS, ⟨COLUMNS,
    [[Cell.na, Cell.na, Cell.na, Cell.na, Cell.na, Cell.na, Cell.na,
      Cell.na, Cell.na, Cell.str ("-3"), Cell.na]]⟩⟩

/-- A worksheet with data rows whose header matches the canonical schema
in no way. -/
def wsMismatch : Worksheet := ⟨2, ["foo"], ⟨["foo"], [[Cell.str ("x")]]⟩⟩

/-- A worksheet whose fetch produced an empty frame although the sheet
has rows and a non-empty, mismatched header row. -/
def wsHeaderOnly : Worksheet := ⟨3, ["foo"], ⟨["foo"], []⟩⟩

/-- A worksheet with one fully valid row and one row whose finish turn
parses to the non-integral 3.5. -/
def wsBadTurn : Worksheet :=
  ⟨3, COLUMNS, ⟨COLUMNS,
    [[Cell.str ("S1"), Cell.str ("2024-05-01"), Cell.na, Cell.na, Cell.na,
      Cell.na, Cell.na, Cell.na, Cell.na, Cell.str ("3"), Cell.na],
     [Cell.na, Cell.na, Cell.na, Cell.na, Cell.na, Cell.na, Cell.na,
      Cell.na, Cell.na, Cell.str ("3.5"), Cell.na]]⟩⟩

/-- A display frame with two dated rows out of order and an undated row
between them. -/
def dfDisplay : TFrame :=
  ⟨COLUMNS,
   [[TypedCell.ttext ("a"), TypedCell.tdate (some ⟨2024, 5, 1⟩)],
    [TypedCell.ttext ("b"), TypedCell.tdate none],
    [TypedCell.ttext ("c"), TypedCell.tdate (some ⟨2024, 6, 2⟩)]]⟩

end WarRecord

namespace WarRecord

/-! ### Helper lemmas -/

theorem parseDate_valid {s : String} {d : Date} (h : parseDate s = some d) :
    d.validB = true := by
  unfold parseDate at h
  split at h
  · rename_i ys ms ds _
    cases hy : digitsToNat? ys with
    | none => rw [hy] at h; simp at h
    | some y =>
      cases hm : digitsToNat? ms with
      | none => rw [hy, hm] at h; simp at h
      | some m =>
        cases hd : digitsToNat? ds with
        | none => rw [hy, hm, hd] at h; simp at h
        | some dd =>
          rw [hy, hm, hd] at h
          simp only at h
          split at h
          · rename_i hv
            cases h
            exact hv
          · cases h
  · cases h

theorem toDatetime_valid (c : Cell) :
    toDatetime c = none ∨ ∃ d, toDatetime c = some d ∧ d.validB = true := by
  cases c with
  | na => exact Or.inl rfl
  | str s =>
    cases hp : parseDate s with
    | none => exact Or.inl hp
    | some d => exact Or.inr ⟨d, hp, parseDate_valid hp⟩

theorem getD_map {α β : Type} (f : α → β) (l : List α) (i : Nat)
    (hi : i < l.length) (d : β) (d' : α) :
    (l.map f).getD i d = f (l.getD i d') := by
  have hi' : i < (l.map f).length := by simpa using hi
  have h1 : (l.map f)[i]? = some (f l[i]) := by
    rw [List.getElem?_map, List.getElem?_eq_getElem hi]
    rfl
  have h2 : l[i]? = some l[i] := List.getElem?_eq_getElem hi
  simp [List.getD_eq_getElem?_getD, h1, h2]

theorem getD_zero_eq_headD {α : Type} (l : List α) (d : α) :
    l.getD 0 d = l.headD d := by
  cases l <;> rfl

theorem tail_getD {α : Type} (l : List α) (j : Nat) (d : α) :
    l.tail.getD j d = l.getD (j + 1) d := by
  cases l <;> rfl

theorem mapExcept_ok_mem {α β ε : Type} {f : α → Except ε β} :
    ∀ {l : List α} {ys : List β}, mapExcept f l = Except.ok ys →
      ∀ y ∈ ys, ∃ x ∈ l, f x = Except.ok y := by
  intro l
  induction l with
  | nil =>
    intro ys h y hy
    cases h
    cases hy
  | cons x xs ih =>
    intro ys h y hy
    unfold mapExcept at h
    cases hfx : f x with
    | error e => rw [hfx] at h; cases h
    | ok v =>
      rw [hfx] at h
      cases hrec : mapExcept f xs with
      | error e => rw [hrec] at h; cases h
      | ok vs =>
        rw [hrec] at h
        cases h
        rcases List.mem_cons.mp hy with h1 | h2
        · exact ⟨x, List.mem_cons_self x xs, h1 ▸ hfx⟩
        · obtain ⟨x0, hx0, hfx0⟩ := ih hrec y h2
          exact ⟨x0, List.mem_cons_of_mem x hx0, hfx0⟩

theorem mapExcept_error_of_mem {α β ε : Type} {f : α → Except ε β} :
    ∀ {l : List α} {x : α} {e : ε}, x ∈ l → f x = Except.error e →
      ∃ e2, mapExcept f l = Except.error e2 := by
  intro l
  induction l with
  | nil => intro x e hx; cases hx
  | cons y ys ih =>
    intro x e hx hfx
    rcases List.mem_cons.mp hx with h1 | h2
    · subst h1
      refine ⟨e, ?_⟩
      unfold mapExcept
      rw [hfx]
    · cases hfy : f y with
      | error e0 =>
        refine ⟨e0, ?_⟩
        unfold mapExcept
        rw [hfy]
      | ok v =>
        obtain ⟨e2, he2⟩ := ih h2 hfx
        refine ⟨e2, ?_⟩
        unfold mapExcept
        rw [hfy, he2]

theorem coerceRow_getD :
    ∀ (cols : List String) (cells : List Cell) (out : List TypedCell)
      (j : Nat), coerceRow cols cells = Except.ok out → j < cols.length →
      coerceCol (cols.getD j "") (cells.getD j Cell.na)
        = Except.ok (out.getD j TypedCell.tna) := by
  intro cols
  induction cols with
  | nil =>
    intro cells out j _ hj
    cases hj
  | cons c cs ih =>
    intro cells out j h hj
    unfold coerceRow at h
    cases hcc : coerceCol c (cells.headD Cell.na) with
    | error e => rw [hcc] at h; cases h
    | ok v =>
      rw [hcc] at h
      cases hrec : coerceRow cs cells.tail with
      | error e => rw [hrec] at h; cases h
      | ok vs =>
        rw [hrec] at h
        cases h
        cases j with
        | zero =>
          show coerceCol c (cells.getD 0 Cell.na) = Except.ok v
          rw [getD_zero_eq_headD]
          exact hcc
        | succ j0 =>
          have hj0 : j0 < cs.length := Nat.lt_of_succ_lt_succ hj
          have hres := ih cells.tail vs j0 hrec hj0
          rw [tail_getD] at hres
          exact hres

theorem coerceRow_error_of_col :
    ∀ (cols : List String) (cells : List Cell) (j : Nat) (e : String),
      j < cols.length →
      coerceCol (cols.getD j "") (cells.getD j Cell.na) = Except.error e →
      ∃ e2, coerceRow cols cells = Except.error e2 := by
  intro cols
  induction cols with
  | nil =>
    intro cells j e hj
    cases hj
  | cons c cs ih =>
    intro cells j e hj hcc
    cases j with
    | zero =>
      refine ⟨e, ?_⟩
      unfold coerceRow
      have hcc2 : coerceCol c (cells.headD Cell.na) = Except.error e := by
        have hg : coerceCol c (cells.getD 0 Cell.na) = Except.error e := hcc
        rw [getD_zero_eq_headD] at hg
        exact hg
      rw [hcc2]
    | succ j0 =>
      cases hhead : coerceCol c (cells.headD Cell.na) with
      | error e0 =>
        refine ⟨e0, ?_⟩
        unfold coerceRow
        rw [hhead]
      | ok v =>
        have hj0 : j0 < cs.length := Nat.lt_of_succ_lt_succ hj
        have hcc0 : coerceCol (cs.getD j0 "") (cells.tail.getD j0 Cell.na)
            = Except.error e := by
          rw [tail_getD]
          exact hcc
        obtain ⟨e2, he2⟩ := ih cells.tail j0 e hj0 hcc0
        refine ⟨e2, ?_⟩
        unfold coerceRow
        rw [hhead, he2]

end WarRecord

namespace WarRecord

theorem coerceCol_date (cell : Cell) :
    coerceCol ("date") cell = Except.ok (TypedCell.tdate (toDatetime cell)) := rfl

theorem coerceCol_finish (cell : Cell) :
    coerceCol ("finish_turn") cell = (toNumericInt64 cell).map TypedCell.tint := rfl

theorem reindexT_getD (rs : List (List TypedCell)) (row : List TypedCell)
    (hrow : row ∈ (reindexT ⟨COLUMNS, rs⟩ COLUMNS).rows) :
    ∃ out ∈ rs, row.getD 1 TypedCell.tna = out.getD 1 TypedCell.tna
      ∧ row.getD 9 TypedCell.tna = out.getD 9 TypedCell.tna := by
  obtain ⟨out, hout, heq⟩ := List.mem_map.mp hrow
  refine ⟨out, hout, ?_, ?_⟩
  · rw [← heq]
    rfl
  · rw [← heq]
    rfl

/-- Structure of every row of a frame returned by a successful
`load_data`: the frame carries the canonical columns, the `date` slot
of each row is the `to_datetime` coercion of some source cell and the
`finish_turn` slot a successful `Int64` coercion of some source
cell. -/
theorem load_ok_inv {env : AuthEnv} {fetch : FetchResult} {t : TFrame}
    {ds : List Diag} (h : load_data env fetch = Except.ok (t, ds)) :
    t.cols = COLUMNS ∧
    ∀ row ∈ t.rows, ∃ cells : List Cell,
      row.getD 1 TypedCell.tna = TypedCell.tdate (toDatetime (cells.getD 1 Cell.na)) ∧
      ∃ n : Option Int, toNumericInt64 (cells.getD 9 Cell.na) = Except.ok n ∧
        row.getD 9 TypedCell.tna = TypedCell.tint n := by
  unfold load_data at h
  cases hacq : acquireClient env with
  | error e => rw [hacq] at h; cases h
  | ok oc =>
    rw [hacq] at h
    cases oc with
    | none =>
      injection h with h2
      injection h2 with ht hds
      subst ht
      exact ⟨rfl, fun row hrow => absurd hrow (List.not_mem_nil row)⟩
    | some c =>
      injection h with h2
      cases fetch with
      | spreadsheetNotFound =>
        injection h2 with ht hds
        subst ht
        exact ⟨rfl, fun row hrow => absurd hrow (List.not_mem_nil row)⟩
      | worksheetNotFound =>
        injection h2 with ht hds
        subst ht
        exact ⟨rfl, fun row hrow => absurd hrow (List.not_mem_nil row)⟩
      | raised m =>
        injection h2 with ht hds
        subst ht
        exact ⟨rfl, fun row hrow => absurd hrow (List.not_mem_nil row)⟩
      | ok ws =>
        cases hcf : coerceFrame (reconcile (preProcess ws).1) with
        | error m =>
          simp only [loadBody, hcf] at h2
          injection h2 with ht hds
          subst ht
          exact ⟨rfl, fun row hrow => absurd hrow (List.not_mem_nil row)⟩
        | ok tf =>
          simp only [loadBody, hcf] at h2
          injection h2 with ht hds
          subst ht
          unfold coerceFrame at hcf
          cases hm : mapExcept (coerceRow (reconcile (preProcess ws).1).cols)
              (reconcile (preProcess ws).1).rows with
          | error e =>
            rw [hm] at hcf
            cases hcf
          | ok rs =>
            rw [hm] at hcf
            injection hcf with htf
            subst htf
            refine ⟨rfl, ?_⟩
            intro row hrow
            have hrow2 : row ∈ (reindexT ⟨COLUMNS, rs⟩ COLUMNS).rows := hrow
            obtain ⟨out, hout, h1, h9⟩ := reindexT_getD rs row hrow2
            have hm2 : mapExcept (coerceRow COLUMNS)
                (reconcile (preProcess ws).1).rows = Except.ok rs := hm
            obtain ⟨cells, hcells, hcr⟩ := mapExcept_ok_mem hm2 out hout
            have hg1 := coerceRow_getD COLUMNS cells out 1 hcr (by decide)
            have hg9 := coerceRow_getD COLUMNS cells out 9 hcr (by decide)
            rw [show COLUMNS.getD 1 ("") = ("date") from rfl, coerceCol_date] at hg1
            injection hg1 with hg1b
            rw [show COLUMNS.getD 9 ("") = ("finish_turn") from rfl,
              coerceCol_finish] at hg9
            refine ⟨cells, ?_, ?_⟩
            · rw [h1, ← hg1b]
            · cases hn : toNumericInt64 (cells.getD 9 Cell.na) with
              | error e =>
                rw [hn] at hg9
                exact absurd (hg9 : Except.error e = Except.ok (out.getD 9 TypedCell.tna))
                  (fun hh => Except.noConfusion hh)
              | ok n =>
                rw [hn] at hg9
                have hg9b : Except.ok (TypedCell.tint n)
                    = Except.ok (out.getD 9 TypedCell.tna) := hg9
                injection hg9b with hg9c
                exact ⟨n, rfl, by rw [h9, ← hg9c]⟩

end WarRecord

namespace WarRecord

/-! ### Claim theorems -/

/-- Claim C1: for every raw input fetched from the remote table — whatever
source columns it carries — a successful load returns a frame whose column
list is exactly the eleven canonical fields in canonical order; a canonical
column missing from the source is synthesised as an all-missing column, and
extra source columns do not appear (the column list being exactly
`COLUMNS`). -/
theorem load_returns_canonical_schema :
    (∀ (env : AuthEnv) (fetch : FetchResult) (t : TFrame) (ds : List Diag),
      load_data env fetch = Except.ok (t, ds) → t.cols = COLUMNS) ∧
    (∀ (df : RawFrame) (i : Nat), i < COLUMNS.length →
      COLUMNS.getD i ("") ∉ df.cols →
      ∀ row ∈ (reconcile df).rows, row.getD i Cell.na = Cell.na) := by
  constructor
  · intro env fetch t ds h
    exact (load_ok_inv h).1
  · intro df i hi hmem row hrow
    obtain ⟨src, hsrc, heq⟩ := List.mem_map.mp hrow
    subst heq
    rw [getD_map _ COLUMNS i hi Cell.na ("")]
    have hfind : df.cols.findIdx? (fun c2 => c2 == COLUMNS.getD i ("")) = none := by
      rw [List.findIdx?_eq_none_iff]
      intro x hx
      exact beq_eq_false_iff_ne.mpr (fun he => hmem (he ▸ hx))
    rw [hfind]

/-- Witness for C1 at a table having only a `season` column. -/
theorem load_returns_canonical_schema_witness :
    (⟨COLUMNS, [[TypedCell.ttext ("S1"), TypedCell.tdate none,
      TypedCell.ttext ("nan"), TypedCell.ttext ("nan"), TypedCell.ttext ("nan"),
      TypedCell.ttext ("nan"), TypedCell.ttext ("nan"), TypedCell.ttext ("nan"),
      TypedCell.ttext ("nan"), TypedCell.tint none, TypedCell.ttext ("nan")]]⟩
        : TFrame).cols = COLUMNS ∧
    [Cell.str ("S1"), Cell.na, Cell.na, Cell.na, Cell.na, Cell.na, Cell.na,
      Cell.na, Cell.na, Cell.na, Cell.na].getD 10 Cell.na = Cell.na :=
  ⟨load_returns_canonical_schema.1 envOk (FetchResult.ok wsSeason) _ [] (by decide),
   load_returns_canonical_schema.2 wsSeason.frame 10 (by decide) (by decide)
     _ (by decide)⟩

/-- Claim C2 counterexample: with the secret bundle present but malformed,
a failure during client acquisition is caught nowhere — `load_data` raises
to its caller (models line 59 sitting outside the `try`) instead of
returning an empty record set with a diagnostic. -/
theorem load_raises_on_acquisition_failure :
    load_data envSecretsBroken FetchResult.spreadsheetNotFound
      = Except.error ("boom") := by decide

/-- Claim C2 (amended): provided client acquisition itself returns rather
than raising (which it can fail to do — see the counterexample), `load_data`
never raises: an unavailable client, either addressing failure, any raise
during fetch, and any raise during coercion all degrade to an empty frame
with the canonical schema plus at least one reported diagnostic. -/
theorem load_no_raise_once_acquired (env : AuthEnv) (fetch : FetchResult)
    (hacq : ∀ e, acquireClient env ≠ Except.error e) :
    ∃ t ds, load_data env fetch = Except.ok (t, ds) ∧ t.cols = COLUMNS ∧
      ((acquireClient env = Except.ok none
        ∨ fetch = FetchResult.spreadsheetNotFound
        ∨ fetch = FetchResult.worksheetNotFound
        ∨ (∃ m, fetch = FetchResult.raised m)
        ∨ (∃ ws m, fetch = FetchResult.ok ws ∧
            coerceFrame (reconcile (preProcess ws).1) = Except.error m)) →
        t.rows = [] ∧ ds ≠ []) := by
  cases ha : acquireClient env with
  | error e => exact absurd ha (hacq e)
  | ok oc =>
    cases oc with
    | none =>
      refine ⟨emptyFrame, [Diag.connectivity], ?_, rfl, ?_⟩
      · unfold load_data
        rw [ha]
      · intro _
        exact ⟨rfl, by decide⟩
    | some c =>
      have hload : load_data env fetch = Except.ok (loadBody fetch) := by
        unfold load_data
        rw [ha]
      cases fetch with
      | spreadsheetNotFound =>
        exact ⟨emptyFrame, [Diag.storeNotFound], hload, rfl,
          fun _ => ⟨rfl, by decide⟩⟩
      | worksheetNotFound =>
        exact ⟨emptyFrame, [Diag.tableNotFound], hload, rfl,
          fun _ => ⟨rfl, by decide⟩⟩
      | raised m =>
        exact ⟨emptyFrame, [Diag.unexpected m], hload, rfl,
          fun _ => ⟨rfl, by simp⟩⟩
      | ok ws =>
        cases hcf : coerceFrame (reconcile (preProcess ws).1) with
        | error m =>
          refine ⟨emptyFrame, (preProcess ws).2 ++ [Diag.unexpected m], ?_, rfl,
            fun _ => ⟨rfl, by simp⟩⟩
          rw [hload]
          simp only [loadBody, hcf]
        | ok tf =>
          refine ⟨reindexT tf COLUMNS, (preProcess ws).2, ?_, rfl, ?_⟩
          · rw [hload]
            simp only [loadBody, hcf]
          · intro hfail
            rcases hfail with h1 | h1 | h1 | ⟨m, h1⟩ | ⟨ws2, m, h1, h2⟩
            · injection h1 with h1b
              exact Option.noConfusion h1b
            · exact FetchResult.noConfusion h1
            · exact FetchResult.noConfusion h1
            · exact FetchResult.noConfusion h1
            · injection h1 with hws
              rw [← hws] at h2
              rw [hcf] at h2
              exact Except.noConfusion h2

/-- Witness for C2 (amended) at an environment whose credential file is
unreadable and a store-not-found fetch. -/
theorem load_no_raise_once_acquired_witness :
    ∃ t ds, load_data envNoFile FetchResult.spreadsheetNotFound
        = Except.ok (t, ds) ∧ t.cols = COLUMNS ∧
      ((acquireClient envNoFile = Except.ok none
        ∨ FetchResult.spreadsheetNotFound = FetchResult.spreadsheetNotFound
        ∨ FetchResult.spreadsheetNotFound = FetchResult.worksheetNotFound
        ∨ (∃ m, FetchResult.spreadsheetNotFound = FetchResult.raised m)
        ∨ (∃ ws m, FetchResult.spreadsheetNotFound = FetchResult.ok ws ∧
            coerceFrame (reconcile (preProcess ws).1) = Except.error m)) →
        t.rows = [] ∧ ds ≠ []) :=
  load_no_raise_once_acquired envNoFile FetchResult.spreadsheetNotFound
    (fun e he => by
      rw [(by decide : acquireClient envNoFile = Except.ok none)] at he
      exact Except.noConfusion he)

/-- Claim C3 (code bug, evaluated at the failing input): loading a table
whose rows lack a `memo` column (and most other text columns) leaves the
string `nan` — not the empty string — in every synthesised text slot,
because `astype(str)` stringifies the missing values before `fillna('')`
can replace them. -/
theorem memo_missing_becomes_nan_string :
    load_data envOk (FetchResult.ok wsSeason)
      = Except.ok (⟨COLUMNS,
        [[TypedCell.ttext ("S1"), TypedCell.tdate none, TypedCell.ttext ("nan"),
          TypedCell.ttext ("nan"), TypedCell.ttext ("nan"), TypedCell.ttext ("nan"),
          TypedCell.ttext ("nan"), TypedCell.ttext ("nan"), TypedCell.ttext ("nan"),
          TypedCell.tint none, TypedCell.ttext ("nan")]]⟩, [])
    ∧ ("nan" : String) ≠ ("") :=
  ⟨by decide, by decide⟩

end WarRecord

namespace WarRecord

/-- Claim C4 counterexample: a source `finish_turn` of `-3` survives into
the returned record set as the negative integer -3, refuting that every
coerced finish turn is non-negative or absent. -/
theorem finish_turn_negative_survives :
    load_data envOk (FetchResult.ok wsNeg)
      = Except.ok (⟨COLUMNS,
        [[TypedCell.ttext ("nan"), TypedCell.tdate none, TypedCell.ttext ("nan"),
          TypedCell.ttext ("nan"), TypedCell.ttext ("nan"), TypedCell.ttext ("nan"),
          TypedCell.ttext ("nan"), TypedCell.ttext ("nan"), TypedCell.ttext ("nan"),
          TypedCell.tint (some (-3)), TypedCell.ttext ("nan")]]⟩, [])
    ∧ (-3 : Int) < 0 :=
  ⟨by decide, by decide⟩

/-- Claim C4 (amended): in every frame a successful load returns, the
`finish_turn` slot of every row is an `Int64` value — an integer (of either
sign: see the counterexample) or absent — and an unparseable source value
(`abc` in particular) coerces to absent, never to zero. -/
theorem finish_turn_integer_or_absent :
    (∀ (env : AuthEnv) (fetch : FetchResult) (t : TFrame) (ds : List Diag),
      load_data env fetch = Except.ok (t, ds) →
      ∀ row ∈ t.rows, ∃ n : Option Int,
        row.getD 9 TypedCell.tna = TypedCell.tint n) ∧
    (∀ s, parseDecimal s = none →
      toNumericInt64 (Cell.str s) = Except.ok none) ∧
    toNumericInt64 (Cell.str ("abc")) = Except.ok none := by
  refine ⟨?_, ?_, by decide⟩
  · intro env fetch t ds h row hrow
    obtain ⟨cells, _, n, _, h9⟩ := (load_ok_inv h).2 row hrow
    exact ⟨n, h9⟩
  · intro s hs
    simp [toNumericInt64, toNumeric, hs]

/-- Witness for C4 (amended) at the season-only table (absent finish turn)
and an unparseable literal. -/
theorem finish_turn_integer_or_absent_witness :
    (∃ n : Option Int,
      [TypedCell.ttext ("S1"), TypedCell.tdate none, TypedCell.ttext ("nan"),
        TypedCell.ttext ("nan"), TypedCell.ttext ("nan"), TypedCell.ttext ("nan"),
        TypedCell.ttext ("nan"), TypedCell.ttext ("nan"), TypedCell.ttext ("nan"),
        TypedCell.tint none, TypedCell.ttext ("nan")].getD 9 TypedCell.tna
        = TypedCell.tint n) ∧
    toNumericInt64 (Cell.str ("xyz")) = Except.ok none :=
  ⟨finish_turn_integer_or_absent.1 envOk (FetchResult.ok wsSeason)
      ⟨COLUMNS, [[TypedCell.ttext ("S1"), TypedCell.tdate none,
        TypedCell.ttext ("nan"), TypedCell.ttext ("nan"), TypedCell.ttext ("nan"),
        TypedCell.ttext ("nan"), TypedCell.ttext ("nan"), TypedCell.ttext ("nan"),
        TypedCell.ttext ("nan"), TypedCell.tint none, TypedCell.ttext ("nan")]]⟩
      [] (by decide) _ (by decide),
   finish_turn_integer_or_absent.2.1 ("xyz") (by decide)⟩

/-- Claim C5: in every frame a successful load returns, the `date` slot of
every row is a `datetime64` value that is either absent or a valid calendar
date — never a raw string — and the empty string, like any unparseable
source value, coerces to absent. -/
theorem date_valid_or_absent :
    (∀ (env : AuthEnv) (fetch : FetchResult) (t : TFrame) (ds : List Diag),
      load_data env fetch = Except.ok (t, ds) →
      ∀ row ∈ t.rows, ∃ o : Option Date,
        row.getD 1 TypedCell.tna = TypedCell.tdate o ∧
        (o = none ∨ ∃ d, o = some d ∧ d.validB = true)) ∧
    toDatetime (Cell.str ("")) = none := by
  refine ⟨?_, by decide⟩
  intro env fetch t ds h row hrow
  obtain ⟨cells, h1, _⟩ := (load_ok_inv h).2 row hrow
  exact ⟨toDatetime (cells.getD 1 Cell.na), h1,
    toDatetime_valid (cells.getD 1 Cell.na)⟩

/-- Witness for C5 at the canonical-header table with a parseable date. -/
theorem date_valid_or_absent_witness :
    (∃ o : Option Date,
      [TypedCell.ttext ("S1"), TypedCell.tdate (some ⟨2024, 5, 1⟩),
        TypedCell.ttext ("nan"), TypedCell.ttext ("nan"), TypedCell.ttext ("nan"),
        TypedCell.ttext ("nan"), TypedCell.ttext ("nan"), TypedCell.ttext ("nan"),
        TypedCell.ttext ("nan"), TypedCell.tint (some 7),
        TypedCell.ttext ("nan")].getD 1 TypedCell.tna = TypedCell.tdate o ∧
      (o = none ∨ ∃ d, o = some d ∧ d.validB = true)) ∧
    toDatetime (Cell.str ("")) = none :=
  ⟨date_valid_or_absent.1 envOk (FetchResult.ok wsCanon)
      ⟨COLUMNS, [[TypedCell.ttext ("S1"), TypedCell.tdate (some ⟨2024, 5, 1⟩),
        TypedCell.ttext ("nan"), TypedCell.ttext ("nan"), TypedCell.ttext ("nan"),
        TypedCell.ttext ("nan"), TypedCell.ttext ("nan"), TypedCell.ttext ("nan"),
        TypedCell.ttext ("nan"), TypedCell.tint (some 7),
        TypedCell.ttext ("nan")]]⟩ [] (by decide) _ (by decide),
   date_valid_or_absent.2⟩

/-- Claim C6 counterexample: with the secret bundle present but malformed,
credential construction raises and the exception escapes
`get_gspread_client` (lines 41-42 of the source sit outside every
try/except), refuting that no failure crosses the boundary. -/
theorem get_client_raises_on_secret_bundle :
    get_gspread_client envSecretsBroken = Except.error ("boom") := by decide

/-- Claim C6 (amended): unless the failing step is credential construction
from a present secret bundle (see the counterexample), `get_gspread_client`
always returns — either a client handle, or `None` together with a recorded
diagnostic (unreadable credential file, or failed authorization from either
credential source). -/
theorem get_client_returns_or_diagnoses (env : AuthEnv)
    (h : env.secrets = SecretsState.present → ∃ c, env.fromInfo = Except.ok c) :
    ∃ r ds, get_gspread_client env = Except.ok (r, ds) ∧
      ((∃ c, r = some c) ∨ (r = none ∧ ds ≠ [])) := by
  cases hs : env.secrets with
  | present =>
    obtain ⟨c, hc⟩ := h hs
    cases hauth : env.authorize c with
    | ok cl =>
      refine ⟨some cl, [], ?_, Or.inl ⟨cl, rfl⟩⟩
      simp [get_gspread_client, hs, hc, hauth]
    | error e =>
      refine ⟨none, [Diag.authError e], ?_, Or.inr ⟨rfl, by simp⟩⟩
      simp [get_gspread_client, hs, hc, hauth]
  | noAttr =>
    cases hf : env.fromFile with
    | error e =>
      refine ⟨none, [Diag.fileCredError e], ?_, Or.inr ⟨rfl, by simp⟩⟩
      simp [get_gspread_client, hs, hf]
    | ok c =>
      cases hauth : env.authorize c with
      | ok cl =>
        refine ⟨some cl, [], ?_, Or.inl ⟨cl, rfl⟩⟩
        simp [get_gspread_client, hs, hf, hauth]
      | error e =>
        refine ⟨none, [Diag.authError e], ?_, Or.inr ⟨rfl, by simp⟩⟩
        simp [get_gspread_client, hs, hf, hauth]
  | apiError =>
    cases hf : env.fromFile with
    | error e =>
      refine ⟨none, [Diag.fileCredError e], ?_, Or.inr ⟨rfl, by simp⟩⟩
      simp [get_gspread_client, hs, hf]
    | ok c =>
      cases hauth : env.authorize c with
      | ok cl =>
        refine ⟨some cl, [], ?_, Or.inl ⟨cl, rfl⟩⟩
        simp [get_gspread_client, hs, hf, hauth]
      | error e =>
        refine ⟨none, [Diag.authError e], ?_, Or.inr ⟨rfl, by simp⟩⟩
        simp [get_gspread_client, hs, hf, hauth]
  | absent =>
    cases hf : env.fromFile with
    | error e =>
      refine ⟨none, [Diag.fileCredError e], ?_, Or.inr ⟨rfl, by simp⟩⟩
      simp [get_gspread_client, hs, hf]
    | ok c =>
      cases hauth : env.authorize c with
      | ok cl =>
        refine ⟨some cl, [], ?_, Or.inl ⟨cl, rfl⟩⟩
        simp [get_gspread_client, hs, hf, hauth]
      | error e =>
        refine ⟨none, [Diag.authError e], ?_, Or.inr ⟨rfl, by simp⟩⟩
        simp [get_gspread_client, hs, hf, hauth]

/-- Witness for C6 (amended) at an environment whose credential file is
unreadable. -/
theorem get_client_returns_or_diagnoses_witness :
    ∃ r ds, get_gspread_client envNoFile = Except.ok (r, ds) ∧
      ((∃ c, r = some c) ∨ (r = none ∧ ds ≠ [])) :=
  get_client_returns_or_diagnoses envNoFile (fun hh => absurd hh (by decide))

/-- Claim C7 counterexample: a fetched table that has data rows and a
header matching the canonical schema in no way (neither exactly, nor as a
positional prefix, nor as a superset) produces no schema-mismatch
diagnostic at all — the header check only runs on the empty-frame
reconstruction path — refuting that every mismatched header is reported. -/
theorem schema_mismatch_silent_on_data_rows :
    headerMatches (wsMismatch.frame.cols) = false ∧
    load_data envOk (FetchResult.ok wsMismatch)
      = Except.ok (⟨COLUMNS,
        [[TypedCell.ttext ("nan"), TypedCell.tdate none, TypedCell.ttext ("nan"),
          TypedCell.ttext ("nan"), TypedCell.ttext ("nan"), TypedCell.ttext ("nan"),
          TypedCell.ttext ("nan"), TypedCell.ttext ("nan"), TypedCell.ttext ("nan"),
          TypedCell.tint none, TypedCell.ttext ("nan")]]⟩, []) :=
  ⟨by decide, by decide⟩

/-- Claim C7 (amended): on the one path where the header is checked — a
fetch yielding an empty frame for a worksheet with a positive row count and
a non-empty header row — a header matching the canonical schema in no way
makes the load report the schema-mismatch diagnostic and still return a
record set with the canonical columns rather than aborting. -/
theorem schema_mismatch_on_header_only_path (ws : Worksheet)
    (he : ws.frame.emptyB = true) (hr : ws.rowCount ≠ 0)
    (hh : ws.headerRow.isEmpty = false)
    (hm : headerMatches ws.headerRow = false) :
    load_data envOk (FetchResult.ok ws)
      = Except.ok (⟨COLUMNS, []⟩, [Diag.schemaMismatch]) := by
  have hcond : (ws.frame.emptyB && (ws.rowCount != 0)
      && !ws.headerRow.isEmpty) = true := by
    rw [he, hh]
    simp [bne_iff_ne, hr]
  have hpre : preProcess ws = (⟨ws.headerRow, []⟩, [Diag.schemaMismatch]) := by
    unfold preProcess
    rw [hcond, hm]
    simp
  have hcf : coerceFrame (reconcile ⟨ws.headerRow, ([] : List (List Cell))⟩)
      = Except.ok ⟨COLUMNS, []⟩ := rfl
  unfold load_data
  rw [(by decide : acquireClient envOk = Except.ok (some ⟨0⟩))]
  simp only [loadBody, hpre, hcf]
  rfl

/-- Witness for C7 (amended) at a header-only worksheet with the header
`foo`. -/
theorem schema_mismatch_on_header_only_path_witness :
    load_data envOk (FetchResult.ok wsHeaderOnly)
      = Except.ok (⟨COLUMNS, []⟩, [Diag.schemaMismatch]) :=
  schema_mismatch_on_header_only_path wsHeaderOnly (by decide) (by decide)
    (by decide) (by decide)

end WarRecord

namespace WarRecord

/-- Claim C8: for every record set prepared for display (one carrying a
`date` column, as every loaded frame does), the displayed order is: the
rows with a present date first, sorted descending by date, followed by
exactly the rows with an absent date in their original relative order. -/
theorem display_dated_desc_then_undated (df : TFrame)
    (h : df.cols.contains ("date") = true) :
    ∃ d u, (displaySort df).rows = d ++ u
      ∧ d.Perm (df.rows.filter (fun r => (rowDate df.cols r).isSome))
      ∧ List.Sorted (dispRel df.cols) d
      ∧ (∀ r ∈ d, (rowDate df.cols r).isSome = true)
      ∧ u = df.rows.filter (fun r => (rowDate df.cols r).isNone) := by
  refine ⟨List.insertionSort (dispRel df.cols)
      (df.rows.filter (fun r => (rowDate df.cols r).isSome)),
    df.rows.filter (fun r => (rowDate df.cols r).isNone), ?_, ?_, ?_, ?_, rfl⟩
  · unfold displaySort
    rw [h]
    simp
  · exact List.perm_insertionSort _ _
  · exact List.sorted_insertionSort _ _
  · intro r hr
    have hmem : r ∈ df.rows.filter (fun r => (rowDate df.cols r).isSome) :=
      (List.perm_insertionSort (dispRel df.cols) _).mem_iff.mp hr
    exact (List.mem_filter.mp hmem).2

/-- Witness for C8 at a three-row frame: two dated rows out of order and
an undated row between them. -/
theorem display_dated_desc_then_undated_witness :
    ∃ d u, (displaySort dfDisplay).rows = d ++ u
      ∧ d.Perm (dfDisplay.rows.filter
          (fun r => (rowDate dfDisplay.cols r).isSome))
      ∧ List.Sorted (dispRel dfDisplay.cols) d
      ∧ (∀ r ∈ d, (rowDate dfDisplay.cols r).isSome = true)
      ∧ u = dfDisplay.rows.filter (fun r => (rowDate dfDisplay.cols r).isNone) :=
  display_dated_desc_then_undated dfDisplay (by decide)

/-- Claim C9: once the first `get_gspread_client` call completes (returns a
value), `st.cache_resource` keeps that value for the process lifetime:
every later call — under any credential environment — returns the first
result without re-running credential construction or authorization, also
when the first result was `None`, so a one-time failure is cached and never
retried. -/
theorem get_client_cached_after_first (env1 env2 : AuthEnv)
    (r : Option Client) (ds : List Diag) (st1 : Option (Option Client))
    (ran : Bool)
    (h : cachedGetClient none env1 = (Except.ok (r, ds), st1, ran)) :
    cachedGetClient st1 env2 = (Except.ok (r, []), st1, false) := by
  unfold cachedGetClient at h
  cases hg : get_gspread_client env1 with
  | ok p =>
    obtain ⟨r1, ds1⟩ := p
    rw [hg] at h
    have h2 : ((Except.ok (r1, ds1) : Except String (Option Client × List Diag)),
        (some r1 : Option (Option Client)), true)
        = (Except.ok (r, ds), st1, ran) := h
    injection h2 with h3 h45
    injection h45 with h4 h5
    injection h3 with hp
    injection hp with hr hds
    subst hr
    subst h4
    rfl
  | error e =>
    rw [hg] at h
    have h2 : ((Except.error e : Except String (Option Client × List Diag)),
        (none : Option (Option Client)), true)
        = (Except.ok (r, ds), st1, ran) := h
    injection h2 with h3 h45
    exact Except.noConfusion h3

/-- Witness for C9: the first call fails building file credentials and
returns `None`; the second call — now under a fully working environment —
still returns the cached `None` without running the body. -/
theorem get_client_cached_after_first_witness :
    cachedGetClient (some none) envOk
      = (Except.ok (none, []), some none, false) :=
  get_client_cached_after_first envNoFile envOk none
    [Diag.fileCredError ("io")] (some none) true (by decide)

/-- Claim C10: if any reconciled row has a `finish_turn` source cell
parsing to a non-integral number, the whole-column `Int64` conversion
raises, the catch-all handler reports the unexpected-error diagnostic, and
the load returns the empty canonical frame: every row of the table —
including fully valid ones — is discarded. -/
theorem nonintegral_finish_turn_discards_all (env : AuthEnv) (c : Client)
    (ws : Worksheet) (row : List Cell) (d : Dec)
    (hacq : acquireClient env = Except.ok (some c))
    (hrow : row ∈ (reconcile (preProcess ws).1).rows)
    (hparse : toNumeric (row.getD 9 Cell.na) = some d)
    (hni : d.isInt = false) :
    ∃ m, load_data env (FetchResult.ok ws)
      = Except.ok (emptyFrame, (preProcess ws).2 ++ [Diag.unexpected m]) := by
  have herr : toNumericInt64 (row.getD 9 Cell.na)
      = Except.error ("cannot safely cast non-equivalent float64 to int64") := by
    unfold toNumericInt64
    simp only [hparse]
    rw [hni]
    simp
  have hcol : coerceCol (COLUMNS.getD 9 ("")) (row.getD 9 Cell.na)
      = Except.error ("cannot safely cast non-equivalent float64 to int64") := by
    rw [show COLUMNS.getD 9 ("") = ("finish_turn") from rfl,
      coerceCol_finish, herr]
    rfl
  obtain ⟨e2, he2⟩ := coerceRow_error_of_col COLUMNS row 9 _ (by decide) hcol
  obtain ⟨e3, he3⟩ := mapExcept_error_of_mem (f := coerceRow COLUMNS) hrow he2
  have hcf : coerceFrame (reconcile (preProcess ws).1) = Except.error e3 := by
    have he4 : mapExcept (coerceRow (reconcile (preProcess ws).1).cols)
        (reconcile (preProcess ws).1).rows = Except.error e3 := he3
    unfold coerceFrame
    rw [he4]
  refine ⟨e3, ?_⟩
  unfold load_data
  rw [hacq]
  simp only [loadBody, hcf]

/-- Witness for C10: a two-row table whose first row is fully valid and
whose second row has finish turn 3.5 loads as the empty canonical frame
with the catch-all diagnostic. -/
theorem nonintegral_finish_turn_discards_all_witness :
    ∃ m, load_data envOk (FetchResult.ok wsBadTurn)
      = Except.ok (emptyFrame, (preProcess wsBadTurn).2 ++ [Diag.unexpected m]) :=
  nonintegral_finish_turn_discards_all envOk ⟨0⟩ wsBadTurn
    [Cell.na, Cell.na, Cell.na, Cell.na, Cell.na, Cell.na, Cell.na,
      Cell.na, Cell.na, Cell.str ("3.5"), Cell.na] ⟨35, 1⟩
    (by decide) (by decide) (by decide) (by decide)

end WarRecord
